import Mathlib

/-!
Shallow embedding of the continuous-recognition backend in
`src/backend/server.py`: the matcher (`compare_faces`), the attendance
ledger accessed through Mongo-style `update_one(..., upsert=True)` with
`$set`, the recognition engine (`CCTVProcessor._process_frame`), the
manual-override endpoint (`override_attendance`), and the frame sampler
(`CCTVProcessor._process_stream`) rendered as an event trace.

Numeric embeddings are modelled over `ℝ` (the Python code computes with
floats); external primitives the engine merely calls — the face detector
`DeepFace.represent` and the similarity verdict — are parameters of the
engine model, exactly as they are opaque callees in the source.
-/

namespace AttendanceSystem

/-! ## Matcher: `compare_faces` (server.py lines 150-160) -/

/-- `np.dot(embedding1, embedding2)` on two vectors. -/
noncomputable def dotProduct (e1 e2 : List ℝ) : ℝ :=
  (List.zipWith (fun x y => x * y) e1 e2).sum

/-- `np.linalg.norm(e)`: the L2 norm, the square root of the dot product
of the vector with itself. -/
noncomputable def l2norm (e : List ℝ) : ℝ :=
  Real.sqrt (dotProduct e e)

/-- `similarity = np.dot(e1, e2) / (np.linalg.norm(e1) * np.linalg.norm(e2))`.
When a norm is zero the Python float division produces `nan`/`inf` (which
compares `False` against the threshold); here the Mathlib convention
`x / 0 = 0` likewise makes the verdict below false, so both fail closed. -/
noncomputable def cosineSimilarity (e1 e2 : List ℝ) : ℝ :=
  dotProduct e1 e2 / (l2norm e1 * l2norm e2)

/-- `compare_faces(embedding1, embedding2, threshold=0.6)` returns
`similarity > threshold`. -/
def compare_faces (e1 e2 : List ℝ) (threshold : ℝ := 0.6) : Prop :=
  cosineSimilarity e1 e2 > threshold

/-! ## Attendance ledger (the `db.attendance` collection)

A record is keyed by `(student_id, date)`; the collection is a list of
key/record pairs with at most one entry per key in every reachable state.
`update_one(filter, {"$set": fields}, upsert=True)` replaces the fields of
the first matching document or inserts a fresh one. -/

/-- One `db.attendance` document, minus its key fields. The auto path's
`$set` does not mention `teacher_id`, so Mongo leaves any existing value
of that field in place; the model reproduces that. -/
structure AttendanceRecord where
  status : String
  marked_by : String
  timestamp : Nat
  teacher_id : Option String
deriving DecidableEq, Repr

/-- The `db.attendance` collection. -/
abbrev Ledger : Type := List ((String × String) × AttendanceRecord)

/-- `db.attendance.find_one({'student_id': sid, 'date': date})`. -/
def lookupRecord (ledger : Ledger) (sid date : String) : Option AttendanceRecord :=
  (List.find? (fun e => e.1.1 == sid && e.1.2 == date) ledger).map (fun e => e.2)

/-- `db.attendance.update_one({'student_id': sid, 'date': date}, {'$set': ...},
upsert=True)`: replace the first document matching the key, or append a new
document when none matches. -/
def upsertRecord (ledger : Ledger) (sid date : String) (r : AttendanceRecord) : Ledger :=
  match ledger with
  | [] => [((sid, date), r)]
  | e :: rest =>
    if e.1.1 == sid && e.1.2 == date then (e.1, r) :: rest
    else e :: upsertRecord rest sid date r

/-- The auto-marking write in `_process_frame` (lines 255-267): `$set`s
`status = 'present'`, `marked_by = 'auto'`, a fresh timestamp, and the key
fields; any `teacher_id` already on the document survives the `$set`. -/
def autoMark (ledger : Ledger) (sid date : String) (now : Nat) : Ledger :=
  upsertRecord ledger sid date
    { status := "present"
      marked_by := "auto"
      timestamp := now
      teacher_id := (lookupRecord ledger sid date).bind (fun r => r.teacher_id) }

/-- `override_attendance` (server.py lines 468-488): unconditionally `$set`s
the client-supplied status string, `marked_by = 'teacher'`, the acting
teacher's id and a fresh timestamp.  The `AttendanceOverride` request model
declares `status: str` with only a comment restricting it to
`'present'`/`'absent'`; no validation is performed, so any string reaches
the write. -/
def override_attendance (ledger : Ledger) (sid date statusArg tid : String)
    (now : Nat) : Ledger :=
  upsertRecord ledger sid date
    { status := statusArg
      marked_by := "teacher"
      timestamp := now
      teacher_id := some tid }

/-! ## Recognition engine: `CCTVProcessor._process_frame` (lines 215-272)

The external detector result is a parameter: `none` models the
`except: return` branch (detection error / no face), `some dets` the list
of detected embeddings.  The similarity verdict `compare_faces` is an
opaque callee from the engine's point of view and enters as the boolean
parameter `matcher`. -/

/-- One `db.face_encodings` document: an enrolled identity with its stored
reference embeddings. -/
structure FaceEncodingDoc (Emb : Type) where
  student_id : String
  embeddings : List Emb
deriving DecidableEq, Repr

/-- The dedup check of lines 243-249: skip when a record for
`(sid, today)` exists and its status is `'present'`. -/
def alreadyPresent (ledger : Ledger) (sid today : String) : Bool :=
  match lookupRecord ledger sid today with
  | some r => r.status == "present"
  | none => false

/-- Lines 239-269, the body of `for stored in face_encodings_list`: check
the dedup condition, then compare the detected embedding against each
stored embedding; on the first match upsert `present`/`auto` and stop
(`break`), giving at most one write per stored identity. -/
def matchStored {Emb : Type} (matcher : Emb → Emb → Bool) (today : String)
    (now : Nat) (detected : Emb) (ledger : Ledger)
    (stored : FaceEncodingDoc Emb) : Ledger :=
  if alreadyPresent ledger stored.student_id today then ledger
  else if stored.embeddings.any (fun se => matcher detected se) then
    autoMark ledger stored.student_id today now
  else ledger

/-- Lines 235-269, the body of `for detected in detected_embeddings`:
fold the per-identity step over the Signature Store snapshot in order. -/
def matchDetected {Emb : Type} (matcher : Emb → Emb → Bool)
    (snapshot : List (FaceEncodingDoc Emb)) (today : String) (now : Nat)
    (ledger : Ledger) (detected : Emb) : Ledger :=
  snapshot.foldl (fun led stored => matchStored matcher today now detected led stored) ledger

/-- `_process_frame`: load at most the first 1000 face-encoding documents
(`to_list(length=1000)`), return untouched if the snapshot is empty (the
detector is not called), otherwise invoke the detector once and match every
detected embedding.  The second component counts detector invocations. -/
def process_frame {Emb : Type} (matcher : Emb → Emb → Bool)
    (store : List (FaceEncodingDoc Emb)) (detections : Option (List Emb))
    (today : String) (now : Nat) (ledger : Ledger) : Ledger × Nat :=
  let snapshot := store.take 1000
  if snapshot.isEmpty then (ledger, 0)
  else
    match detections with
    | none => (ledger, 1)
    | some dets =>
      (dets.foldl (fun led detected => matchDetected matcher snapshot today now led detected) ledger, 1)

/-! ## Frame sampler: `CCTVProcessor._process_stream` (lines 184-213)

The loop is rendered as an event trace over a finite list of read
results (`none` = `cap.read()` returned `ret == False`); exhausting the
list models `is_running` going false (cancellation), after which the
`finally` block releases the capture handle currently held.  Handles are
numbered in the order `cv2.VideoCapture` is called. -/

/-- Observable events of the sampling loop. -/
inductive StreamEvent where
  /-- `cv2.VideoCapture(stream_url)` allocating handle `h`. -/
  | openCapture (url : String) (h : Nat)
  /-- `cap.read()` returned no frame. -/
  | readFailure
  /-- `time.sleep(secs)`. -/
  | sleep (secs : Nat)
  /-- `asyncio.run(self._process_frame(frame))` on frame `f`. -/
  | forward (f : Nat)
  /-- `cap.release()` on handle `h`. -/
  | release (h : Nat)
deriving DecidableEq, Repr

/-- The `while self.is_running` loop: a failed read logs, sleeps 5 s,
reopens the same URL and continues; a successful read increments
`frame_count` and forwards the frame only when `frame_count % stride == 0`,
then sleeps 1 s.  `cur` is the handle currently held, `nxt` the number the
next `cv2.VideoCapture` call would receive. -/
def streamLoop (url : String) (stride : Nat) (reads : List (Option Nat))
    (frame_count cur nxt : Nat) : List StreamEvent :=
  match reads with
  | [] => [StreamEvent.release cur]
  | none :: rest =>
    StreamEvent.readFailure :: StreamEvent.sleep 5 :: StreamEvent.openCapture url nxt ::
      streamLoop url stride rest frame_count nxt (nxt + 1)
  | some f :: rest =>
    if (frame_count + 1) % stride ≠ 0 then
      streamLoop url stride rest (frame_count + 1) cur nxt
    else
      StreamEvent.forward f :: StreamEvent.sleep 1 ::
        streamLoop url stride rest (frame_count + 1) cur nxt

/-- `_process_stream`: open the stream (handle 0), run the loop with
`frame_count = 0`.  The source hardcodes `stride = 30`
(`if frame_count % 30 != 0: continue`); the stride is a parameter here so
the reference scenarios (stride 3) are expressible, with 30 as the code's
value. -/
def process_stream (url : String) (stride : Nat) (reads : List (Option Nat)) :
    List StreamEvent :=
  StreamEvent.openCapture url 0 :: streamLoop url stride reads 0 0 1

/-- The code's literal sampling stride (`frame_count % 30`). -/
def FRAME_STRIDE : Nat := 30

/-- Frames handed to `_process_frame`, in trace order. -/
def forwardedFrames (tr : List StreamEvent) : List Nat :=
  tr.filterMap (fun e =>
    match e with
    | StreamEvent.forward f => some f
    | _ => none)

/-- Handles passed to `cv2.VideoCapture`, in trace order. -/
def openedHandles (tr : List StreamEvent) : List Nat :=
  tr.filterMap (fun e =>
    match e with
    | StreamEvent.openCapture _ h => some h
    | _ => none)

/-- Handles on which `cap.release()` is called, in trace order. -/
def releasedHandles (tr : List StreamEvent) : List Nat :=
  tr.filterMap (fun e =>
    match e with
    | StreamEvent.release h => some h
    | _ => none)

/-- Checks that every `forward` event is immediately followed by a
1-second sleep. -/
def pacedAfterForward : List StreamEvent → Bool
  | [] => true
  | e :: rest =>
    (match e, rest with
     | StreamEvent.forward _, StreamEvent.sleep 1 :: _ => true
     | StreamEvent.forward _, _ => false
     | _, _ => true) && pacedAfterForward rest

/-- Checks that every `readFailure` event is immediately followed by a
5-second backoff and a reopen of the given URL. -/
def retriesOnFailure (url : String) : List StreamEvent → Bool
  | [] => true
  | e :: rest =>
    (match e, rest with
     | StreamEvent.readFailure, StreamEvent.sleep 5 :: StreamEvent.openCapture u _ :: _ => u == url
     | StreamEvent.readFailure, _ => false
     | _, _ => true) && retriesOnFailure url rest

/-! ## Ledger lemmas -/

lemma lookupRecord_upsert_self (L : Ledger) (sid date : String) (r : AttendanceRecord) :
    lookupRecord (upsertRecord L sid date r) sid date = some r := by
  induction L with
  | nil => simp [lookupRecord, upsertRecord]
  | cons e rest ih =>
    by_cases h : (e.1.1 == sid && e.1.2 == date) = true
    · simp [upsertRecord, h, lookupRecord]
    · simp only [upsertRecord, h, if_false, Bool.false_eq_true]
      simpa [lookupRecord, h] using ih

lemma lookupRecord_upsert_ne (L : Ledger) {sid date sid' date' : String}
    (r : AttendanceRecord) (h : ¬ (sid' = sid ∧ date' = date)) :
    lookupRecord (upsertRecord L sid date r) sid' date' = lookupRecord L sid' date' := by
  induction L with
  | nil =>
    have hpe : (sid == sid' && date == date') = false := by
      by_cases h1 : sid = sid'
      · by_cases h2 : date = date'
        · exact absurd ⟨h1.symm, h2.symm⟩ h
        · simp [h2]
      · simp [h1]
    simp [upsertRecord, lookupRecord, List.find?, hpe]
  | cons e rest ih =>
    by_cases hk : (e.1.1 == sid && e.1.2 == date) = true
    · have hpe : (e.1.1 == sid' && e.1.2 == date') = false := by
        have h1 : e.1.1 = sid := by
          have := (Bool.and_eq_true _ _).mp hk
          simpa [beq_iff_eq] using this.1
        have h2 : e.1.2 = date := by
          have := (Bool.and_eq_true _ _).mp hk
          simpa [beq_iff_eq] using this.2
        by_cases hb1 : e.1.1 = sid'
        · by_cases hb2 : e.1.2 = date'
          · exact absurd ⟨(h1.symm.trans hb1).symm, (h2.symm.trans hb2).symm⟩ h
          · simp [hb2]
        · simp [hb1]
      simp [upsertRecord, hk, lookupRecord, hpe]
    · by_cases hpe : (e.1.1 == sid' && e.1.2 == date') = true
      · simp [upsertRecord, hk, lookupRecord, hpe]
      · simp only [upsertRecord, hk, if_false, Bool.false_eq_true]
        simpa [lookupRecord, hpe] using ih

/-! ## Engine preservation lemmas -/

lemma foldl_preserves {α β : Type _} (P : β → Prop) (f : β → α → β)
    (l : List α) (hstep : ∀ b a, a ∈ l → P b → P (f b a)) :
    ∀ b, P b → P (l.foldl f b) := by
  induction l with
  | nil => intro b hb; simpa using hb
  | cons x xs ih =>
    intro b hb
    simp only [List.foldl_cons]
    exact ih (fun b a ha hb => hstep b a (List.mem_cons_of_mem x ha) hb)
      (f b x) (hstep b x (List.mem_cons_self x xs) hb)

lemma matchStored_preserves_present {Emb : Type} (matcher : Emb → Emb → Bool)
    (today : String) (now : Nat) (detected : Emb) (L : Ledger)
    (stored : FaceEncodingDoc Emb) {i d : String} {r : AttendanceRecord}
    (hl : lookupRecord L i d = some r) (hs : r.status = "present") :
    lookupRecord (matchStored matcher today now detected L stored) i d = some r := by
  unfold matchStored
  by_cases hap : alreadyPresent L stored.student_id today = true
  · simp [hap, hl]
  · simp only [hap, if_false, Bool.false_eq_true]
    by_cases hm : stored.embeddings.any (fun se => matcher detected se) = true
    · simp only [hm, if_true]
      unfold autoMark
      rw [lookupRecord_upsert_ne _ _ ?_]
      · exact hl
      · rintro ⟨hi, hd⟩
        apply hap
        unfold alreadyPresent
        rw [← hi, ← hd, hl]
        simp [hs]
    · simp [hm, hl]

lemma process_frame_preserves_present {Emb : Type} (matcher : Emb → Emb → Bool)
    (store : List (FaceEncodingDoc Emb)) (detections : Option (List Emb))
    (today : String) (now : Nat) (L : Ledger) {i d : String} {r : AttendanceRecord}
    (hl : lookupRecord L i d = some r) (hs : r.status = "present") :
    lookupRecord (process_frame matcher store detections today now L).1 i d = some r := by
  unfold process_frame
  by_cases he : (store.take 1000).isEmpty = true
  · simp [he, hl]
  · simp only [he, if_false, Bool.false_eq_true]
    cases detections with
    | none => simpa using hl
    | some dets =>
      simp only []
      refine foldl_preserves (fun led => lookupRecord led i d = some r) _ dets ?_ L hl
      intro led det _ hled
      unfold matchDetected
      refine foldl_preserves (fun led2 => lookupRecord led2 i d = some r) _ _ ?_ led hled
      intro led2 stored _ h2
      exact matchStored_preserves_present matcher today now det led2 stored h2 hs

/-! ## Claims about the engine -/

/-- C1: for every identity `i` and date `d` whose attendance record already
has `status = present`, processing any further frame through the
auto-matching path leaves the record for `(i, d)` unchanged — status,
`marked_by` and timestamp included — so no second auto write takes effect
for that identity on that day. -/
theorem auto_path_preserves_present_record {Emb : Type} (matcher : Emb → Emb → Bool)
    (store : List (FaceEncodingDoc Emb)) (detections : Option (List Emb))
    (today : String) (now : Nat) (ledger : Ledger) (i d : String)
    (r : AttendanceRecord) (hl : lookupRecord ledger i d = some r)
    (hs : r.status = "present") :
    lookupRecord (process_frame matcher store detections today now ledger).1 i d = some r :=
  process_frame_preserves_present matcher store detections today now ledger hl hs

/-- Witness for C1 at a concrete input: identity `s1` already `present`
on `2026-03-02`, a frame whose candidate matches everything, and a second
enrolled identity `s2`; the record of `s1` survives unchanged. -/
theorem auto_path_preserves_present_record_witness :
    lookupRecord [(("s1", "2026-03-02"), ⟨"present", "auto", 5, none⟩)] "s1" "2026-03-02"
        = some ⟨"present", "auto", 5, none⟩
    ∧ (⟨"present", "auto", 5, none⟩ : AttendanceRecord).status = "present"
    ∧ lookupRecord (process_frame (fun _ _ : Nat => true) [⟨"s1", [0]⟩, ⟨"s2", [0]⟩]
        (some [0]) "2026-03-02" 9
        [(("s1", "2026-03-02"), ⟨"present", "auto", 5, none⟩)]).1 "s1" "2026-03-02"
        = some ⟨"present", "auto", 5, none⟩ :=
  ⟨by decide, rfl,
    auto_path_preserves_present_record (fun _ _ : Nat => true) [⟨"s1", [0]⟩, ⟨"s2", [0]⟩]
      (some [0]) "2026-03-02" 9 [(("s1", "2026-03-02"), ⟨"present", "auto", 5, none⟩)]
      "s1" "2026-03-02" ⟨"present", "auto", 5, none⟩ (by decide) rfl⟩

lemma matchStored_preserves_other {Emb : Type} (matcher : Emb → Emb → Bool)
    (today : String) (now : Nat) (detected : Emb) (L : Ledger)
    (stored : FaceEncodingDoc Emb) {i : String} (d : String)
    (hne : stored.student_id ≠ i) :
    lookupRecord (matchStored matcher today now detected L stored) i d = lookupRecord L i d := by
  unfold matchStored
  by_cases hap : alreadyPresent L stored.student_id today = true
  · simp [hap]
  · simp only [hap, if_false, Bool.false_eq_true]
    by_cases hm : stored.embeddings.any (fun se => matcher detected se) = true
    · simp only [hm, if_true]
      unfold autoMark
      exact lookupRecord_upsert_ne _ _ (fun hk => hne hk.1.symm)
    · simp [hm]

lemma process_frame_preserves_other {Emb : Type} (matcher : Emb → Emb → Bool)
    (store : List (FaceEncodingDoc Emb)) (detections : Option (List Emb))
    (today : String) (now : Nat) (ledger : Ledger) {i : String}
    (hout : ∀ doc ∈ store.take 1000, doc.student_id ≠ i) (d : String) :
    lookupRecord (process_frame matcher store detections today now ledger).1 i d
      = lookupRecord ledger i d := by
  unfold process_frame
  by_cases he : (store.take 1000).isEmpty = true
  · simp [he]
  · simp only [he, if_false, Bool.false_eq_true]
    cases detections with
    | none => simp
    | some dets =>
      simp only []
      refine foldl_preserves (fun led => lookupRecord led i d = lookupRecord ledger i d)
        _ dets ?_ ledger rfl
      intro led det _ hled
      unfold matchDetected
      refine foldl_preserves (fun led2 => lookupRecord led2 i d = lookupRecord ledger i d)
        _ _ ?_ led hled
      intro led2 stored hmem h2
      rw [matchStored_preserves_other matcher today now det led2 stored d (hout stored hmem)]
      exact h2

/-- C2 counterexample: a manual override that marks `s1` absent for
`2026-03-02` is overwritten back to `present`/`auto` by a subsequent
auto-matching frame whose candidate matches `s1` — the dedup check in
`_process_frame` skips only records whose current status is `'present'`,
so an `absent` override does not protect the record. -/
theorem override_absent_overwritten_by_auto :
    lookupRecord (override_attendance [] "s1" "2026-03-02" "absent" "t1" 5) "s1" "2026-03-02"
        = some ⟨"absent", "teacher", 5, some "t1"⟩
    ∧ lookupRecord (process_frame (fun _ _ : Nat => true) [⟨"s1", [0]⟩] (some [0])
        "2026-03-02" 9 (override_attendance [] "s1" "2026-03-02" "absent" "t1" 5)).1
        "s1" "2026-03-02" = some ⟨"present", "auto", 9, some "t1"⟩ := by
  exact ⟨by decide, by decide⟩

/-- C2 (amended): a manual override is always applied at the moment it is
issued, regardless of the record's current state — in particular
`override(i, d, absent)` after `auto-mark(i, d, present)` results in
`absent` — and once an override has written `status = present` for
`(i, d)`, no subsequent auto-matching frame changes that record.  (An
override that writes `absent` is *not* protected from later auto writes;
see the counterexample.) -/
theorem override_applied_and_present_override_stable {Emb : Type}
    (matcher : Emb → Emb → Bool) (store : List (FaceEncodingDoc Emb))
    (detections : Option (List Emb)) (today : String) (now2 : Nat)
    (ledger : Ledger) (i d st tid : String) (now : Nat) :
    lookupRecord (override_attendance ledger i d st tid now) i d
        = some ⟨st, "teacher", now, some tid⟩
    ∧ lookupRecord (process_frame matcher store detections today now2
        (override_attendance ledger i d "present" tid now)).1 i d
        = some ⟨"present", "teacher", now, some tid⟩ := by
  constructor
  · unfold override_attendance
    exact lookupRecord_upsert_self ledger i d _
  · refine process_frame_preserves_present matcher store detections today now2 _ ?_ rfl
    unfold override_attendance
    exact lookupRecord_upsert_self ledger i d _

/-- C8: with an empty Signature Store snapshot (no enrolled identities),
`_process_frame` discards the frame before ever invoking the detector:
the detector call count is 0 and the ledger is returned unchanged. -/
theorem empty_store_skips_detector {Emb : Type} (matcher : Emb → Emb → Bool)
    (detections : Option (List Emb)) (today : String) (now : Nat) (ledger : Ledger) :
    process_frame matcher ([] : List (FaceEncodingDoc Emb)) detections today now ledger
      = (ledger, 0) := rfl

/-- C9 (code bug): the override endpoint persists the client-supplied
status string verbatim — `AttendanceOverride.status` is declared `str`
with only a comment restricting it to `'present'`/`'absent'` and no
validation — so a reachable write stores a status outside
`{present, absent}`. -/
theorem override_stores_unvalidated_status :
    lookupRecord (override_attendance [] "s1" "2026-03-02" "late" "t1" 0) "s1" "2026-03-02"
        = some ⟨"late", "teacher", 0, some "t1"⟩
    ∧ "late" ≠ "present" ∧ "late" ≠ "absent" :=
  ⟨by decide, by decide, by decide⟩

/-- C10: the per-frame snapshot is `to_list(length=1000)` — at most the
first 1000 face-encoding documents — and an enrolled identity that does
not appear among those first 1000 documents is never compared and never
written: every one of its ledger records is left exactly as it was. -/
theorem snapshot_capped_at_1000 {Emb : Type} (matcher : Emb → Emb → Bool)
    (store : List (FaceEncodingDoc Emb)) (detections : Option (List Emb))
    (today : String) (now : Nat) (ledger : Ledger) (i : String)
    (hout : ∀ doc ∈ store.take 1000, doc.student_id ≠ i) (d : String) :
    (store.take 1000).length ≤ 1000
    ∧ lookupRecord (process_frame matcher store detections today now ledger).1 i d
        = lookupRecord ledger i d := by
  constructor
  · rw [List.length_take]
    exact min_le_left _ _
  · exact process_frame_preserves_other matcher store detections today now ledger hout d

/-- Witness for C10 at a concrete input: a store whose only document
belongs to `s0`, queried for the unenrolled identity `s1`. -/
theorem snapshot_capped_at_1000_witness :
    (∀ doc ∈ ([⟨"s0", [0]⟩] : List (FaceEncodingDoc Nat)).take 1000, doc.student_id ≠ "s1")
    ∧ (([⟨"s0", [0]⟩] : List (FaceEncodingDoc Nat)).take 1000).length ≤ 1000
    ∧ lookupRecord (process_frame (fun _ _ : Nat => true) [⟨"s0", [0]⟩] (some [0])
        "2026-03-02" 9 ([] : Ledger)).1 "s1" "2026-03-02"
        = lookupRecord ([] : Ledger) "s1" "2026-03-02" := by
  have h := snapshot_capped_at_1000 (fun _ _ : Nat => true) [⟨"s0", [0]⟩] (some [0])
    "2026-03-02" 9 ([] : Ledger) "s1" (by decide) "2026-03-02"
  exact ⟨by decide, h.1, h.2⟩

/-! ## Sampler trace lemmas -/

lemma forwardedFrames_streamLoop (url : String) (stride : Nat) :
    ∀ (reads : List (Option Nat)) (fc cur nxt : Nat),
      forwardedFrames (streamLoop url stride reads fc cur nxt)
        = ((reads.filterMap id).enumFrom (fc + 1)).filterMap
            (fun p => if p.1 % stride = 0 then some p.2 else none) := by
  intro reads
  induction reads with
  | nil => intro fc cur nxt; simp [streamLoop, forwardedFrames]
  | cons a rest ih =>
    intro fc cur nxt
    cases a with
    | none =>
      simp only [streamLoop, forwardedFrames, List.filterMap_cons]
      simpa [forwardedFrames] using ih fc nxt (nxt + 1)
    | some f =>
      by_cases hc : (fc + 1) % stride = 0
      · simp only [streamLoop, hc, ne_eq, not_true_eq_false, if_false]
        simp only [forwardedFrames, List.filterMap_cons, List.enumFrom, hc, if_true]
        simpa [forwardedFrames] using ih (fc + 1) cur nxt
      · simp only [streamLoop, hc, ne_eq, not_false_eq_true, if_true]
        simp only [List.filterMap_cons, List.enumFrom, hc, if_false]
        simpa [forwardedFrames] using ih (fc + 1) cur nxt

lemma pacedAfterForward_streamLoop (url : String) (stride : Nat) :
    ∀ (reads : List (Option Nat)) (fc cur nxt : Nat),
      pacedAfterForward (streamLoop url stride reads fc cur nxt) = true := by
  intro reads
  induction reads with
  | nil => intro fc cur nxt; simp [streamLoop, pacedAfterForward]
  | cons a rest ih =>
    intro fc cur nxt
    cases a with
    | none =>
      simp only [streamLoop, pacedAfterForward, Bool.true_and]
      exact ih fc nxt (nxt + 1)
    | some f =>
      by_cases hc : (fc + 1) % stride = 0
      · simp only [streamLoop, hc, ne_eq, not_true_eq_false, if_false]
        simp only [pacedAfterForward, Bool.true_and]
        exact ih (fc + 1) cur nxt
      · simp only [streamLoop, hc, ne_eq, not_false_eq_true, if_true]
        exact ih (fc + 1) cur nxt

lemma retriesOnFailure_streamLoop (url : String) (stride : Nat) :
    ∀ (reads : List (Option Nat)) (fc cur nxt : Nat),
      retriesOnFailure url (streamLoop url stride reads fc cur nxt) = true := by
  intro reads
  induction reads with
  | nil => intro fc cur nxt; simp [streamLoop, retriesOnFailure]
  | cons a rest ih =>
    intro fc cur nxt
    cases a with
    | none =>
      simp only [streamLoop, retriesOnFailure, Bool.true_and, beq_self_eq_true,
        Bool.and_true, Bool.true_eq]
      simpa [retriesOnFailure] using ih fc nxt (nxt + 1)
    | some f =>
      by_cases hc : (fc + 1) % stride = 0
      · simp only [streamLoop, hc, ne_eq, not_true_eq_false, if_false]
        simp only [retriesOnFailure, Bool.true_and]
        exact ih (fc + 1) cur nxt
      · simp only [streamLoop, hc, ne_eq, not_false_eq_true, if_true]
        exact ih (fc + 1) cur nxt

lemma handles_streamLoop (url : String) (stride : Nat) :
    ∀ (reads : List (Option Nat)) (fc cur nxt : Nat),
      openedHandles (streamLoop url stride reads fc cur nxt)
          = List.range' nxt (reads.countP (fun r => r.isNone))
      ∧ releasedHandles (streamLoop url stride reads fc cur nxt)
          = [if reads.countP (fun r => r.isNone) = 0 then cur
             else nxt + reads.countP (fun r => r.isNone) - 1] := by
  intro reads
  induction reads with
  | nil =>
    intro fc cur nxt
    simp [streamLoop, openedHandles, releasedHandles, List.range']
  | cons a rest ih =>
    intro fc cur nxt
    cases a with
    | none =>
      obtain ⟨iho, ihr⟩ := ih fc nxt (nxt + 1)
      constructor
      · simp only [streamLoop, openedHandles, List.filterMap_cons]
        simp only [openedHandles] at iho
        rw [iho]
        simp [List.countP_cons, List.range'_succ]
      · simp only [streamLoop, releasedHandles, List.filterMap_cons]
        simp only [releasedHandles] at ihr
        rw [ihr]
        simp only [List.countP_cons, Option.isNone_none, if_true]
        congr 1
        by_cases h0 : rest.countP (fun r => r.isNone) = 0
        · simp [h0]
        · have h1 : rest.countP (fun r => r.isNone) + 1 ≠ 0 := by omega
          rw [if_neg h0, if_neg (by omega : ¬ rest.countP (fun r => r.isNone) + 1 = 0)]
          omega
    | some f =>
      have hcnt : ((some f :: rest).countP (fun r => r.isNone))
          = rest.countP (fun r => r.isNone) := by
        simp [List.countP_cons]
      by_cases hc : (fc + 1) % stride = 0
      · simp only [streamLoop, hc, ne_eq, not_true_eq_false, if_false]
        obtain ⟨iho, ihr⟩ := ih (fc + 1) cur nxt
        rw [hcnt]
        constructor
        · simpa [openedHandles] using iho
        · simpa [releasedHandles] using ihr
      · simp only [streamLoop, hc, ne_eq, not_false_eq_true, if_true]
        rw [hcnt]
        exact ih (fc + 1) cur nxt

/-! ## Claims about the sampler -/

/-- C5: of the frames successfully read, exactly those whose running count
(1-based over successful reads) is a multiple of the stride are forwarded
to the engine, every forwarded frame is immediately followed by the fixed
1-second sleep, and in the reference scenario (stride 3, frames 1..9
delivered) exactly frames 3, 6 and 9 are forwarded.  The source hardcodes
stride 30 (`FRAME_STRIDE`); the first two conjuncts cover every stride,
including 30. -/
theorem sampler_stride_and_pacing :
    (∀ (url : String) (stride : Nat) (reads : List (Option Nat)),
      forwardedFrames (process_stream url stride reads)
        = ((reads.filterMap id).enumFrom 1).filterMap
            (fun p => if p.1 % stride = 0 then some p.2 else none))
    ∧ (∀ (url : String) (stride : Nat) (reads : List (Option Nat)),
        pacedAfterForward (process_stream url stride reads) = true)
    ∧ forwardedFrames (process_stream "demo" 3 ((List.range 9).map (fun k => some (k + 1))))
        = [3, 6, 9] := by
  refine ⟨?_, ?_, by decide⟩
  · intro url stride reads
    simp only [process_stream, forwardedFrames, List.filterMap_cons]
    exact forwardedFrames_streamLoop url stride reads 0 0 1
  · intro url stride reads
    simp only [process_stream, pacedAfterForward, Bool.true_and]
    exact pacedAfterForward_streamLoop url stride reads 0 0 1

/-- C6: a failed capture read never terminates the sampling loop — it
emits the warning-path events (5-second backoff, reopen of the same
stream URL) and resumes with the remaining reads, with the frame counter
intact; every failure in every trace is handled this way; and a source
that fails its first 2 reads and then delivers frames forwards a frame
(stride 30, the code's value: the 30th delivered frame). -/
theorem sampler_retries_failed_reads :
    (∀ (url : String) (stride : Nat) (reads : List (Option Nat)) (fc cur nxt : Nat),
      streamLoop url stride (none :: reads) fc cur nxt
        = StreamEvent.readFailure :: StreamEvent.sleep 5 :: StreamEvent.openCapture url nxt ::
            streamLoop url stride reads fc nxt (nxt + 1))
    ∧ (∀ (url : String) (stride : Nat) (reads : List (Option Nat)),
        retriesOnFailure url (process_stream url stride reads) = true)
    ∧ forwardedFrames (process_stream "demo" FRAME_STRIDE
        ([none, none] ++ List.replicate 30 (some 7))) = [7] := by
  refine ⟨fun url stride reads fc cur nxt => rfl, ?_, by decide⟩
  intro url stride reads
  simp only [process_stream, retriesOnFailure, Bool.true_and]
  exact retriesOnFailure_streamLoop url stride reads 0 0 1

/-- C7 counterexample: after a single failed read the loop reopens the
stream, but the handle opened first (handle 0) is never released — only
the handle current at exit is released by the `finally` block, so the
failure-retry path leaks the superseded handle. -/
theorem reopened_handle_leaked :
    StreamEvent.openCapture "demo" 0 ∈ process_stream "demo" 30 [none]
    ∧ StreamEvent.release 0 ∉ process_stream "demo" 30 [none] :=
  ⟨by decide, by decide⟩

/-- C7 (amended): the sampling task opens one handle plus one per failed
read (handles `0 .. numFailures`), and on every exit path releases exactly
the handle it currently holds — the most recently opened one — leaving
every handle superseded on the failure-retry path unreleased. -/
theorem only_current_handle_released (url : String) (stride : Nat)
    (reads : List (Option Nat)) :
    openedHandles (process_stream url stride reads)
        = List.range (reads.countP (fun r => r.isNone) + 1)
    ∧ releasedHandles (process_stream url stride reads)
        = [reads.countP (fun r => r.isNone)] := by
  obtain ⟨ho, hr⟩ := handles_streamLoop url stride reads 0 0 1
  constructor
  · simp only [process_stream, openedHandles, List.filterMap_cons]
    simp only [openedHandles] at ho
    rw [ho, List.range_eq_range', List.range'_succ]
  · simp only [process_stream, releasedHandles, List.filterMap_cons]
    simp only [releasedHandles] at hr
    rw [hr]
    congr 1
    by_cases h0 : reads.countP (fun r => r.isNone) = 0
    · simp [h0]
    · rw [if_neg h0]
      omega

/-! ## Matcher lemmas and claims -/

lemma dotProduct_self_nonneg (e : List ℝ) : 0 ≤ dotProduct e e := by
  induction e with
  | nil => simp [dotProduct]
  | cons x xs ih =>
    have hx : dotProduct (x :: xs) (x :: xs) = x * x + dotProduct xs xs := by
      simp [dotProduct]
    rw [hx]
    have := mul_self_nonneg x
    linarith

/-- C3: `compare_faces(a, b)` holds exactly when the cosine similarity
(dot product over the product of L2 norms) strictly exceeds the default
threshold 0.6; similarity exactly 0.6 is rejected; a vector compared with
itself has similarity 1 and is accepted; orthogonal vectors have
similarity 0 and are rejected. -/
theorem matcher_threshold_boundary (e1 e2 : List ℝ)
    (h1 : l2norm e1 ≠ 0) (h2 : l2norm e2 ≠ 0) :
    (compare_faces e1 e2 ↔ cosineSimilarity e1 e2 > 0.6)
    ∧ (cosineSimilarity e1 e2 = 0.6 → ¬ compare_faces e1 e2)
    ∧ (cosineSimilarity e1 e1 = 1 ∧ compare_faces e1 e1)
    ∧ (dotProduct e1 e2 = 0 → cosineSimilarity e1 e2 = 0 ∧ ¬ compare_faces e1 e2) := by
  have hd : 0 ≤ dotProduct e1 e1 := dotProduct_self_nonneg e1
  have hne : dotProduct e1 e1 ≠ 0 := by
    intro h0
    apply h1
    unfold l2norm
    rw [h0, Real.sqrt_zero]
  have hself : cosineSimilarity e1 e1 = 1 := by
    unfold cosineSimilarity l2norm
    rw [Real.mul_self_sqrt hd, div_self hne]
  refine ⟨Iff.rfl, ?_, ⟨hself, ?_⟩, ?_⟩
  · intro heq hc
    unfold compare_faces at hc
    rw [heq] at hc
    exact lt_irrefl _ hc
  · unfold compare_faces
    rw [hself]
    norm_num
  · intro h0
    have hcos : cosineSimilarity e1 e2 = 0 := by
      unfold cosineSimilarity
      rw [h0, zero_div]
    refine ⟨hcos, ?_⟩
    unfold compare_faces
    rw [hcos]
    norm_num

/-- Witness for C3 at the concrete vectors `(1, 0)` and `(0, 1)` (unit
norms, orthogonal). -/
theorem matcher_threshold_boundary_witness :
    l2norm [(1 : ℝ), 0] ≠ 0 ∧ l2norm [(0 : ℝ), 1] ≠ 0
    ∧ ((compare_faces [(1 : ℝ), 0] [(0 : ℝ), 1]
          ↔ cosineSimilarity [(1 : ℝ), 0] [(0 : ℝ), 1] > 0.6)
        ∧ (cosineSimilarity [(1 : ℝ), 0] [(0 : ℝ), 1] = 0.6
            → ¬ compare_faces [(1 : ℝ), 0] [(0 : ℝ), 1])
        ∧ (cosineSimilarity [(1 : ℝ), 0] [(1 : ℝ), 0] = 1
            ∧ compare_faces [(1 : ℝ), 0] [(1 : ℝ), 0])
        ∧ (dotProduct [(1 : ℝ), 0] [(0 : ℝ), 1] = 0
            → cosineSimilarity [(1 : ℝ), 0] [(0 : ℝ), 1] = 0
              ∧ ¬ compare_faces [(1 : ℝ), 0] [(0 : ℝ), 1])) := by
  have ha : l2norm [(1 : ℝ), 0] ≠ 0 := by
    unfold l2norm dotProduct
    simp
  have hb : l2norm [(0 : ℝ), 1] ≠ 0 := by
    unfold l2norm dotProduct
    simp
  exact ⟨ha, hb, matcher_threshold_boundary [(1 : ℝ), 0] [(0 : ℝ), 1] ha hb⟩

/-- C4: the matcher fails closed on degenerate input — when either vector
has zero L2 norm, the verdict is false (in the Python source the float
division yields `nan`, whose comparison against the threshold is `False`,
and any raised numeric error is caught and turned into `False`; the model
returns the same verdict through the division-by-zero convention). -/
theorem matcher_fails_closed (e1 e2 : List ℝ)
    (h : l2norm e1 = 0 ∨ l2norm e2 = 0) : ¬ compare_faces e1 e2 := by
  unfold compare_faces cosineSimilarity
  rcases h with h | h
  · rw [h, zero_mul, div_zero]
    norm_num
  · rw [h, mul_zero, div_zero]
    norm_num

/-- Witness for C4 at the zero vector against `(1)`. -/
theorem matcher_fails_closed_witness :
    (l2norm [(0 : ℝ)] = 0 ∨ l2norm [(1 : ℝ)] = 0)
    ∧ ¬ compare_faces [(0 : ℝ)] [(1 : ℝ)] := by
  have h0 : l2norm [(0 : ℝ)] = 0 := by
    unfold l2norm dotProduct
    simp
  exact ⟨Or.inl h0, matcher_fails_closed [(0 : ℝ)] [(1 : ℝ)] (Or.inl h0)⟩

end AttendanceSystem
